import Mathlib

/-!
Verification development for the Group_Chat repository (src/server.py,
src/client.py): a shallow embedding of the server relay engine and the
client connection state machine, with theorems settling the specification
claims against the code.

Modelling conventions:
* sockets are identified by natural numbers;
* Python `dict` objects (insertion-ordered, unique keys) are association
  lists `List (Nat × _)` with `alookup` / `aupdate` / `aremove` mirroring
  `d[k]` / `d[k] = v` / `d.pop(k, None)`;
* bytes are `List Nat` (each element < 256 in every reachable use);
* `str.encode("utf-8")` and `bytes.decode("utf-8", errors="ignore")` are
  modelled by a concrete UTF-8 codec (`utf8Encode`, `utf8DecodeIgnore`)
  where undecodable byte sequences are skipped, as CPython's
  `errors="ignore"` handler does;
* GUI calls (`self.gui.log_message`, `wx.CallAfter(self._append_*)`) are
  recorded in output lists (`log`, `notices`); `print` output in `printed`;
* a raised-and-escaping Python exception is the `some e` of an
  `Option String` result component.
-/

namespace GroupChat

set_option maxRecDepth 4000

/-! ### Python string primitives -/

/-- Whitespace recognised by Python's `str.strip()` (the code points that
occur in this code base's data; the full Unicode set adds only more
exotic spaces). -/
def isPySpace (c : Char) : Bool :=
  c = ' ' || c = '\t' || c = '\n' || c = '\r' || c = '\x0b' || c = '\x0c' ||
  c = '\x1c' || c = '\x1d' || c = '\x1e' || c = '\x1f' || c = '\x85' || c = '\xa0'

/-- `str.strip()` on a character list: drop whitespace from both ends. -/
def stripList (l : List Char) : List Char :=
  ((l.dropWhile isPySpace).reverse.dropWhile isPySpace).reverse

/-- Python `s.strip()`. -/
def pyStrip (s : String) : String := ⟨stripList s.data⟩

/-- Auxiliary: `p` is a prefix of `l` (Boolean). -/
def listIsPref : List Char → List Char → Bool
  | [], _ => true
  | _ :: _, [] => false
  | a :: p, b :: l => a = b && listIsPref p l

/-- Python `s.startswith(p)`. -/
def startsWithPy (s p : String) : Bool := listIsPref p.data s.data

/-- Python slicing `s[n:]`. -/
def dropPy (s : String) (n : Nat) : String := ⟨s.data.drop n⟩

/-- Python `s.split(c, 1)` when it yields two parts: split at the first
occurrence of character `c`; `none` when `c` does not occur (in which
case Python returns a one-element list and tuple unpacking raises
`ValueError`). -/
def splitOnceChar (c : Char) : List Char → Option (List Char × List Char)
  | [] => none
  | x :: t =>
    if x = c then some ([], t)
    else (splitOnceChar c t).map (fun ab => (x :: ab.1, ab.2))

/-! ### UTF-8 codec (`str.encode("utf-8")`, `bytes.decode("utf-8", errors="ignore")`) -/

/-- UTF-8 encoding of one character. -/
def utf8EncodeChar (c : Char) : List Nat :=
  let n := c.toNat
  if n < 0x80 then [n]
  else if n < 0x800 then [0xC0 + n / 64, 0x80 + n % 64]
  else if n < 0x10000 then
    [0xE0 + n / 4096, 0x80 + (n / 64) % 64, 0x80 + n % 64]
  else
    [0xF0 + n / 262144, 0x80 + (n / 4096) % 64, 0x80 + (n / 64) % 64, 0x80 + n % 64]

def utf8EncodeList : List Char → List Nat
  | [] => []
  | c :: t => utf8EncodeChar c ++ utf8EncodeList t

/-- Python `s.encode("utf-8")`. -/
def utf8Encode (s : String) : List Nat := utf8EncodeList s.data

/-- A UTF-8 continuation byte. -/
def isCont (b : Nat) : Bool := 0x80 ≤ b && b ≤ 0xBF

/-- Valid first continuation byte after a 3-byte lead (excludes overlong
encodings for `0xE0` and surrogates for `0xED`). -/
def eCont1 (b c1 : Nat) : Bool :=
  if b = 0xE0 then 0xA0 ≤ c1 && c1 ≤ 0xBF
  else if b = 0xED then 0x80 ≤ c1 && c1 ≤ 0x9F
  else isCont c1

/-- Valid first continuation byte after a 4-byte lead (excludes overlong
encodings for `0xF0` and values above `0x10FFFF` for `0xF4`). -/
def fCont1 (b c1 : Nat) : Bool :=
  if b = 0xF0 then 0x90 ≤ c1 && c1 ≤ 0xBF
  else if b = 0xF4 then 0x80 ≤ c1 && c1 ≤ 0x8F
  else isCont c1

/-- One decoding step: given a lead byte `b` and the following bytes,
return the decoded character (or `none` for an invalid sequence, which
`errors="ignore"` skips) and how many continuation bytes were consumed.
Invalid sequences consume their maximal valid subpart, as CPython does. -/
def utf8DecodeStep (b : Nat) (rest : List Nat) : Option Char × Nat :=
  if b < 0x80 then (some (Char.ofNat b), 0)
  else if 0xC2 ≤ b && b ≤ 0xDF then
    match rest with
    | c1 :: _ =>
      if isCont c1 then (some (Char.ofNat ((b - 0xC0) * 64 + (c1 - 0x80))), 1)
      else (none, 0)
    | [] => (none, 0)
  else if 0xE0 ≤ b && b ≤ 0xEF then
    match rest with
    | c1 :: c2 :: _ =>
      if eCont1 b c1 then
        if isCont c2 then
          (some (Char.ofNat ((b - 0xE0) * 4096 + (c1 - 0x80) * 64 + (c2 - 0x80))), 2)
        else (none, 1)
      else (none, 0)
    | [c1] => if eCont1 b c1 then (none, 1) else (none, 0)
    | [] => (none, 0)
  else if 0xF0 ≤ b && b ≤ 0xF4 then
    match rest with
    | c1 :: c2 :: c3 :: _ =>
      if fCont1 b c1 then
        if isCont c2 then
          if isCont c3 then
            (some (Char.ofNat
              ((b - 0xF0) * 262144 + (c1 - 0x80) * 4096 + (c2 - 0x80) * 64 + (c3 - 0x80))), 3)
          else (none, 2)
        else (none, 1)
      else (none, 0)
    | [c1, c2] =>
      if fCont1 b c1 then (if isCont c2 then (none, 2) else (none, 1)) else (none, 0)
    | [c1] => if fCont1 b c1 then (none, 1) else (none, 0)
    | [] => (none, 0)
  else (none, 0)

/-- Python `bytes.decode("utf-8", errors="ignore")`: total; undecodable
sequences are dropped and decoding continues. -/
def utf8DecodeIgnore : List Nat → List Char
  | [] => []
  | b :: rest =>
    match utf8DecodeStep b rest with
    | (some c, m) => c :: utf8DecodeIgnore (rest.drop m)
    | (none, m) => utf8DecodeIgnore (rest.drop m)
termination_by l => l.length
decreasing_by
  all_goals simp [List.length_drop]; omega

/-! ### Python dict as an association list -/

/-- `d.get(k)` / `k in d`: value at the first (unique) matching key. -/
def alookup {α : Type} : List (Nat × α) → Nat → Option α
  | [], _ => none
  | (k, v) :: t, k0 => if k = k0 then some v else alookup t k0

/-- `d[k] = v`: update in place if the key exists, else append
(Python dicts preserve insertion order). -/
def aupdate {α : Type} : List (Nat × α) → Nat → α → List (Nat × α)
  | [], k0, v0 => [(k0, v0)]
  | (k, v) :: t, k0, v0 =>
    if k = k0 then (k, v0) :: t else (k, v) :: aupdate t k0 v0

/-- `d.pop(k, None)` (the state part): remove the entry if present. -/
def aremove {α : Type} : List (Nat × α) → Nat → List (Nat × α)
  | [], _ => []
  | (k, v) :: t, k0 => if k = k0 then t else (k, v) :: aremove t k0

/-! ### Server model (`src/server.py`, class `ChatServer`)

The select-loop state consists of socket lists, the per-client message
queues and the client-name map, exactly the attributes set up in
`_initialize_connection_management`.  Two ghost components record the
observable output: `log` (all `gui.log_message` lines, in order) and
`sent` (all bytes handed to `socket.send`, per socket, in order).
`closedSockets` records which sockets have been `close()`d, because
`getpeername()` on a closed socket raises `OSError`. -/

/-- Model of `str(sock.getpeername())`: each accepted connection has a
fixed peer address, rendered as a deterministic function of the socket id. -/
def peerStr (s : Nat) : String := "addr-" ++ toString s

structure ServerState where
  inputSockets : List Nat
  outputSockets : List Nat
  exceptionalSockets : List Nat
  messageQueues : List (Nat × List (List Nat))
  clientNames : List (Nat × String)
  closedSockets : List Nat
  log : List String
  sent : List (Nat × List Nat)
deriving Repr, DecidableEq

/-- `self.gui.log_message(m)`. -/
def logMsg (st : ServerState) (m : String) : ServerState :=
  { st with log := st.log ++ [m] }

/-- `ChatServer._broadcast_message`: encode the message and append the
bytes to the queue of every socket in `message_queues`. -/
def broadcastMessage (st : ServerState) (message : String) : ServerState :=
  let messageBytes := utf8Encode message
  { st with messageQueues :=
      st.messageQueues.map (fun kv => (kv.1, kv.2 ++ [messageBytes])) }

/-- `ChatServer._accept_new_client` (success path): add the socket to the
input and output lists, give it an empty queue, log the connection. -/
def acceptNewClient (st : ServerState) (s : Nat) : ServerState :=
  { st with
    inputSockets := st.inputSockets ++ [s]
    outputSockets := st.outputSockets ++ [s]
    messageQueues := aupdate st.messageQueues s []
    log := st.log ++ ["New connection from " ++ peerStr s] }

/-- `ChatServer._handle_name_registration`. -/
def handleNameRegistration (st : ServerState) (s : Nat) (messageText : String) :
    ServerState :=
  if startsWithPy messageText "NAME:" then
    let username0 := pyStrip (dropPy messageText 5)
    let username := if username0 = "" then peerStr s else username0
    let st1 := { st with clientNames := aupdate st.clientNames s username }
    let joinMessage := "SYS:" ++ username ++ " joined"
    broadcastMessage (logMsg st1 joinMessage) joinMessage
  else
    st

/-- `ChatServer._handle_chat_message`. -/
def handleChatMessage (st : ServerState) (s : Nat) (messageText : String) :
    ServerState :=
  if startsWithPy messageText "MSG:" then
    let messageContent := pyStrip (dropPy messageText 4)
    let username := (alookup st.clientNames s).getD (peerStr s)
    let relayMessage := "FROM:" ++ username ++ ":" ++ messageContent
    let st1 := logMsg st (username ++ ": " ++ messageContent)
    broadcastMessage st1 relayMessage
  else
    st

/-- `ChatServer._process_client_message`: name registration until the
client is in `client_names`, chat handling afterwards. -/
def processClientMessage (st : ServerState) (s : Nat) (messageText : String) :
    ServerState :=
  if (alookup st.clientNames s).isSome then handleChatMessage st s messageText
  else handleNameRegistration st s messageText

/-- `ChatServer._cleanup_client_socket`: drop the socket from the select
lists, close it, and pop its queue and name.  Nothing in the body can
raise, so the surrounding `try` never logs. -/
def cleanupClientSocket (st : ServerState) (s : Nat) : ServerState :=
  { st with
    inputSockets := st.inputSockets.erase s
    outputSockets := st.outputSockets.erase s
    closedSockets :=
      if s ∈ st.closedSockets then st.closedSockets
      else st.closedSockets ++ [s]
    messageQueues := aremove st.messageQueues s
    clientNames := aremove st.clientNames s }

/-- `ChatServer._handle_client_disconnection`: pop the name, log the
disconnection (this calls `getpeername()`, which raises on an already
closed socket — the `some` error result), clean up, and broadcast a
leave notice when the client had a name. -/
def handleClientDisconnection (st : ServerState) (s : Nat) :
    ServerState × Option String :=
  let username := alookup st.clientNames s
  let st1 := { st with clientNames := aremove st.clientNames s }
  if s ∈ st1.closedSockets then
    (st1, some "Bad file descriptor")
  else
    let st2 := logMsg st1 ("Client disconnected: " ++ peerStr s)
    let st3 := cleanupClientSocket st2 s
    match username with
    | some name =>
      let leaveMessage := "SYS:" ++ name ++ " left"
      (broadcastMessage (logMsg st3 leaveMessage) leaveMessage, none)
    | none => (st3, none)

/-- A disconnection handled under `_run_server`'s `try`/`except`: an
exception escaping `_handle_client_disconnection` is caught by the main
loop, which logs `Server error: ...` and continues. -/
def runDisconnectionInLoop (st : ServerState) (s : Nat) : ServerState :=
  match handleClientDisconnection st s with
  | (st1, none) => st1
  | (st1, some e) => logMsg st1 ("Server error: " ++ e)

/-- `ChatServer._handle_writable_sockets`, for one writable socket:
if the socket has a non-empty queue, pop the oldest byte-sequence and
send it; a send failure (`sendOk = false`) appends the socket to
`exceptional_sockets` (the bytes were already popped). -/
def handleWritableSocket (st : ServerState) (s : Nat) (sendOk : Bool) :
    ServerState :=
  match alookup st.messageQueues s with
  | some (h :: t) =>
    if sendOk then
      { st with
        messageQueues := aupdate st.messageQueues s t
        sent := st.sent ++ [(s, h)] }
    else
      { st with
        messageQueues := aupdate st.messageQueues s t
        exceptionalSockets := st.exceptionalSockets ++ [s] }
  | _ => st

/-- `ChatServer._handle_client_data`: `recv` either raises (`.error`),
returns data, or returns empty bytes.  On data, decode with
`errors="ignore"`, strip, and process; on empty bytes or a raise, handle
disconnection.  The `Option String` result is an exception escaping the
function (only possible out of `_handle_client_disconnection`). -/
def handleClientData (st : ServerState) (s : Nat)
    (recvResult : Except String (List Nat)) : ServerState × Option String :=
  match recvResult with
  | .ok receivedData =>
    if receivedData ≠ [] then
      (processClientMessage st s (pyStrip ⟨utf8DecodeIgnore receivedData⟩), none)
    else
      -- the disconnection call sits inside the `try`: if it raises, the
      -- `except` logs the error and calls the disconnection handler again
      match handleClientDisconnection st s with
      | (st1, none) => (st1, none)
      | (st1, some e) =>
        handleClientDisconnection (logMsg st1 ("Error handling client data: " ++ e)) s
  | .error e =>
    let st1 := logMsg st ("Error handling client data: " ++ e)
    handleClientDisconnection st1 s

/-! ### Client model (`src/client.py`, class `ChatClient`) -/

def RECONNECT_BASE_DELAY : Nat := 1
def RECONNECT_MAX_DELAY : Nat := 16

/-- Observable outcome of one `ChatClient._attempt_connection` call:
whether `self.client_socket` is set afterwards (the client's notion of
being connected), the system notices handed to the GUI, the console
`print` output, the sleeps performed, and the returned delay. -/
structure AttemptOut where
  connectedSocket : Bool
  notices : List String
  printed : List String
  sleeps : List Nat
  nextDelay : Nat
deriving Repr, DecidableEq

/-- `ChatClient._attempt_connection`, driven by the environment:
`connectOk` is whether socket creation/`connect`/`setblocking` succeed,
`handshakeErr` is `some e` when `socket.send` of the `NAME:` handshake
raises `e`.  Note `_send_username_handshake` catches its own exception
and only `print`s, so a handshake failure never reaches the `except`
branch of `_attempt_connection`. -/
def attemptConnection (connectOk : Bool) (handshakeErr : Option String)
    (currentDelay : Nat) : AttemptOut :=
  if connectOk then
    { connectedSocket := true
      notices := ["Connected to chat server"]
      printed :=
        match handshakeErr with
        | some e => ["Failed to send username: " ++ e]
        | none => []
      sleeps := []
      nextDelay := RECONNECT_BASE_DELAY }
  else
    { connectedSocket := false
      notices := ["Connection failed, retrying in " ++ toString currentDelay ++ "s"]
      printed := []
      sleeps := [currentDelay]
      nextDelay := min RECONNECT_MAX_DELAY (currentDelay * 2) }

/-- The reconnect delay held by `_network_loop` after `n` consecutive
failed connection attempts (it starts at `RECONNECT_BASE_DELAY`). -/
def delayAfterFailures : Nat → Nat
  | 0 => RECONNECT_BASE_DELAY
  | n + 1 => (attemptConnection false none (delayAfterFailures n)).nextDelay

/-- The delays slept (and reported) over `n` consecutive failed attempts:
the `k`-th failed attempt sleeps `delayAfterFailures k`. -/
def sleptDelays (n : Nat) : List Nat := (List.range n).map delayAfterFailures

/-- Events the client hands to the display (`wx.CallAfter` targets). -/
inductive ClientEvent where
  | systemNotice (text : String)
  | ownMessage (text : String)
  | otherMessage (sender text : String)
deriving Repr, DecidableEq

/-- `ChatClient._handle_incoming_message`: strip, then dispatch on the
`SYS:` and `FROM:` prefixes; a `FROM:` payload whose remainder has no
`:` makes the tuple unpacking raise `ValueError`, which is caught and
rendered as a system notice holding the raw (stripped) text. -/
def handleIncomingMessage (username : String) (raw : String) : List ClientEvent :=
  let messageText := pyStrip raw
  if startsWithPy messageText "SYS:" then
    [.systemNotice (pyStrip (dropPy messageText 4))]
  else if startsWithPy messageText "FROM:" then
    -- message_text.split("FROM:", 1): the text starts with "FROM:", so
    -- the first part is empty and the rest is the text after the prefix
    let rest := dropPy messageText 5
    match splitOnceChar ':' rest.data with
    | some (senderName, messageContent) =>
      let senderName := pyStrip ⟨senderName⟩
      let messageContent := pyStrip ⟨messageContent⟩
      if senderName = username then [.ownMessage messageContent]
      else [.otherMessage senderName messageContent]
    | none => [.systemNotice messageText]
  else
    [.systemNotice messageText]

/-- Observable outcome of one `ChatClient.send_message` call. -/
structure SendOut where
  socketAfter : Option Nat
  wireWrites : List (List Nat)
  notices : List String
  inputCleared : Bool
deriving Repr, DecidableEq

/-- `ChatClient.send_message`: `sock` is `self.client_socket`,
`sendErr` is `some e` when `socket.send` raises `e`, `input` is the
text field's contents. -/
def sendMessage (sock : Option Nat) (sendErr : Option String) (input : String) :
    SendOut :=
  let messageText := pyStrip input
  if messageText = "" then
    { socketAfter := sock, wireWrites := [], notices := [], inputCleared := false }
  else
    match sock with
    | some _ =>
      match sendErr with
      | none =>
        { socketAfter := sock
          wireWrites := [utf8Encode ("MSG:" ++ messageText)]
          notices := []
          inputCleared := true }
      | some e =>
        { socketAfter := sock
          wireWrites := []
          notices := ["Failed to send message: " ++ e]
          inputCleared := true }
    | none =>
      { socketAfter := sock
        wireWrites := []
        notices := ["Not connected to server"]
        inputCleared := true }

/-! ### Queue-trace machinery for the per-connection FIFO property -/

/-- The relay-loop operations that touch outbound queues: a broadcast
enqueue (`_broadcast_message`) and the servicing of one writable socket
(`_handle_writable_sockets`, with the send outcome). -/
inductive ServerOp where
  | enq (msg : String)
  | srv (s : Nat) (ok : Bool)
deriving Repr, DecidableEq

def applyOp (st : ServerState) : ServerOp → ServerState
  | .enq m => broadcastMessage st m
  | .srv s ok => handleWritableSocket st s ok

def runOps (st : ServerState) : List ServerOp → ServerState
  | [] => st
  | op :: t => runOps (applyOp st op) t

/-- The byte-sequences sent to socket `s`, in send order. -/
def sentTo (s : Nat) : List (Nat × List Nat) → List (List Nat)
  | [] => []
  | (c, b) :: t => if c = s then b :: sentTo s t else sentTo s t

/-- The byte-sequences a list of operations enqueues (every broadcast
reaches every queue, so this is the same for every registered socket). -/
def enqBytes : List ServerOp → List (List Nat)
  | [] => []
  | .enq m :: t => utf8Encode m :: enqBytes t
  | .srv _ _ :: t => enqBytes t

/-- Every servicing of socket `s` in `ops` succeeded. -/
def allOk (s : Nat) (ops : List ServerOp) : Prop :=
  ∀ ok, ServerOp.srv s ok ∈ ops → ok = true

/-- A concrete relay state: listening socket 100; socket 0 registered as
"alice"; socket 1 connected (it has a message queue) but not yet
registered (no entry in `clientNames`). -/
def stAlice : ServerState :=
  { inputSockets := [100, 0, 1]
    outputSockets := [0, 1]
    exceptionalSockets := []
    messageQueues := [(0, []), (1, [])]
    clientNames := [(0, "alice")]
    closedSockets := []
    log := []
    sent := [] }

/-! ### Helper lemmas -/

theorem alookup_aupdate_self {α : Type} (l : List (Nat × α)) (k : Nat) (v : α) :
    alookup (aupdate l k v) k = some v := by
  induction l with
  | nil => simp [aupdate, alookup]
  | cons kv t ih =>
    obtain ⟨k1, v1⟩ := kv
    by_cases h : k1 = k
    · simp [aupdate, h, alookup]
    · simp [aupdate, h, alookup, ih]

theorem alookup_aupdate_ne {α : Type} (l : List (Nat × α)) (k k' : Nat) (v : α)
    (h : k' ≠ k) : alookup (aupdate l k v) k' = alookup l k' := by
  induction l with
  | nil =>
    simp only [aupdate, alookup]
    rw [if_neg (fun hh => h hh.symm)]
  | cons kv t ih =>
    obtain ⟨k1, v1⟩ := kv
    by_cases h1 : k1 = k
    · subst h1
      simp only [aupdate, if_pos rfl, alookup]
      rw [if_neg (fun hh => h hh.symm), if_neg (fun hh => h hh.symm)]
    · simp [aupdate, h1, alookup, ih]

theorem alookup_mapval {α β : Type} (f : α → β) (l : List (Nat × α)) (k : Nat) :
    alookup (l.map (fun kv => (kv.1, f kv.2))) k = (alookup l k).map f := by
  induction l with
  | nil => simp [alookup]
  | cons kv t ih =>
    obtain ⟨k1, v1⟩ := kv
    by_cases h : k1 = k <;> simp [alookup, h, ih]

theorem aremove_eq_of_alookup_none {α : Type} (l : List (Nat × α)) (k : Nat)
    (h : alookup l k = none) : aremove l k = l := by
  induction l with
  | nil => rfl
  | cons kv t ih =>
    obtain ⟨k1, v1⟩ := kv
    by_cases h1 : k1 = k
    · simp [alookup, h1] at h
    · simp [alookup, h1] at h
      simp [aremove, h1, ih h]

theorem dropWhile_append_of_all {p : Char → Bool} (l1 l2 : List Char)
    (h : ∀ x ∈ l1, p x = true) : (l1 ++ l2).dropWhile p = l2.dropWhile p := by
  induction l1 with
  | nil => rfl
  | cons a t ih =>
    have ha : p a = true := h a (by simp)
    simp only [List.cons_append, List.dropWhile_cons, ha, if_true]
    exact ih (fun x hx => h x (by simp [hx]))

theorem dropWhile_append_of_ne_nil {p : Char → Bool} (l1 l2 : List Char)
    (h : l1.dropWhile p ≠ []) : (l1 ++ l2).dropWhile p = l1.dropWhile p ++ l2 := by
  induction l1 with
  | nil => simp [List.dropWhile] at h
  | cons a t ih =>
    by_cases ha : p a
    · simp only [List.dropWhile_cons, ha, if_true] at h
      simp only [List.cons_append, List.dropWhile_cons, ha, if_true]
      exact ih h
    · simp [List.dropWhile_cons, ha]

theorem stripList_pad (t pre post : List Char)
    (hpre : ∀ x ∈ pre, isPySpace x = true)
    (hpost : ∀ x ∈ post, isPySpace x = true) :
    stripList (pre ++ t ++ post) = stripList t := by
  unfold stripList
  rw [List.append_assoc, dropWhile_append_of_all pre (t ++ post) hpre]
  by_cases hT : t.dropWhile isPySpace = []
  · have ht : ∀ x ∈ t, isPySpace x := List.dropWhile_eq_nil_iff.mp hT
    have hpost2 : post.dropWhile isPySpace = [] :=
      List.dropWhile_eq_nil_iff.mpr (fun x hx => hpost x hx)
    rw [dropWhile_append_of_all t post (fun x hx => ht x hx), hT, hpost2]
  · rw [dropWhile_append_of_ne_nil t post hT, List.reverse_append,
      dropWhile_append_of_all post.reverse _
        (fun x hx => hpost x (List.mem_reverse.mp hx))]

theorem listIsPref_cons_iff {a : Char} {p l : List Char} :
    listIsPref (a :: p) l = true ↔ ∃ t, l = a :: t ∧ listIsPref p t = true := by
  cases l with
  | nil => simp [listIsPref]
  | cons b t =>
    simp only [listIsPref, Bool.and_eq_true, decide_eq_true_eq]
    constructor
    · rintro ⟨hab, h⟩
      exact ⟨t, by rw [hab], h⟩
    · rintro ⟨t', ht', h⟩
      obtain ⟨rfl, rfl⟩ : a = b ∧ t' = t := by
        have := ht'
        injection this with h1 h2
        exact ⟨h1.symm, h2.symm⟩
      exact ⟨rfl, h⟩

theorem listIsPref_self_append (p t : List Char) : listIsPref p (p ++ t) = true := by
  induction p with
  | nil => rfl
  | cons a q ih => simp [listIsPref, ih]

theorem listIsPref_false_of_head_ne {a b : Char} {p q l : List Char}
    (hne : b ≠ a)
    (h : listIsPref (a :: p) l = true) :
    listIsPref (b :: q) l = false := by
  obtain ⟨r, hr, _⟩ := listIsPref_cons_iff.mp h
  subst hr
  simp only [listIsPref, Bool.and_eq_false_iff, decide_eq_false_iff_not]
  left
  exact hne

theorem splitOnceChar_eq_none {c : Char} {l : List Char}
    (h : ∀ x ∈ l, x ≠ c) : splitOnceChar c l = none := by
  induction l with
  | nil => rfl
  | cons a t ih =>
    simp [splitOnceChar, h a (by simp), ih (fun x hx => h x (by simp [hx]))]

theorem startsWith_MSG_not_NAME {t : String}
    (h : startsWithPy t "MSG:" = true) : startsWithPy t "NAME:" = false :=
  listIsPref_false_of_head_ne (by decide) h

theorem startsWith_NAME_not_MSG {t : String}
    (h : startsWithPy t "NAME:" = true) : startsWithPy t "MSG:" = false :=
  listIsPref_false_of_head_ne (by decide) h

theorem startsWith_FROM_not_SYS {t : String}
    (h : startsWithPy t "FROM:" = true) : startsWithPy t "SYS:" = false :=
  listIsPref_false_of_head_ne (by decide) h

theorem dropPy_prefix_append (p t : String) : dropPy (p ++ t) p.data.length = t := by
  unfold dropPy
  rw [show (p ++ t).data = p.data ++ t.data from rfl, List.drop_left]

theorem startsWithPy_self_append (p t : String) : startsWithPy (p ++ t) p = true := by
  unfold startsWithPy
  rw [show (p ++ t).data = p.data ++ t.data from rfl]
  exact listIsPref_self_append p.data t.data

theorem alookup_eq_none_of_not_mem_keys {α : Type} (l : List (Nat × α)) (k : Nat)
    (h : k ∉ l.map Prod.fst) : alookup l k = none := by
  induction l with
  | nil => rfl
  | cons kv t ih =>
    obtain ⟨k1, v1⟩ := kv
    rw [List.map_cons] at h
    simp only [List.mem_cons, not_or] at h
    simp only [alookup]
    rw [if_neg (fun hh : k1 = k => h.1 hh.symm)]
    exact ih h.2

theorem alookup_aremove_self_of_nodup {α : Type} (l : List (Nat × α)) (k : Nat)
    (h : (l.map Prod.fst).Nodup) : alookup (aremove l k) k = none := by
  induction l with
  | nil => rfl
  | cons kv t ih =>
    obtain ⟨k1, v1⟩ := kv
    rw [List.map_cons, List.nodup_cons] at h
    by_cases h1 : k1 = k
    · subst h1
      simp only [aremove, if_pos rfl]
      exact alookup_eq_none_of_not_mem_keys t k1 h.1
    · simp [aremove, h1, alookup, ih h.2]

theorem sentTo_append (s : Nat) (l1 l2 : List (Nat × List Nat)) :
    sentTo s (l1 ++ l2) = sentTo s l1 ++ sentTo s l2 := by
  induction l1 with
  | nil => rfl
  | cons kv t ih =>
    obtain ⟨c, b⟩ := kv
    by_cases h : c = s <;> simp [sentTo, h, ih]

theorem delayAfterFailures_closed (n : Nat) :
    delayAfterFailures n = min RECONNECT_MAX_DELAY (2 ^ n) := by
  induction n with
  | zero => decide
  | succ n ih =>
    show (attemptConnection false none (delayAfterFailures n)).nextDelay = _
    rw [ih]
    show min RECONNECT_MAX_DELAY (min RECONNECT_MAX_DELAY (2 ^ n) * 2) =
      min RECONNECT_MAX_DELAY (2 ^ (n + 1))
    unfold RECONNECT_MAX_DELAY
    rcases Nat.le_total (2 ^ n) 16 with h | h
    · rw [Nat.min_eq_right h, pow_succ]
    · have h2 : 16 ≤ 2 ^ (n + 1) := by rw [pow_succ]; omega
      rw [Nat.min_eq_left h, Nat.min_eq_left (by omega : (16 : Nat) ≤ 16 * 2),
        Nat.min_eq_left h2]

theorem broadcastMessage_alookup (st : ServerState) (m : String) (c : Nat)
    (q : List (List Nat)) (hq : alookup st.messageQueues c = some q) :
    alookup (broadcastMessage st m).messageQueues c = some (q ++ [utf8Encode m]) := by
  have h1 := alookup_mapval (fun v => v ++ [utf8Encode m]) st.messageQueues c
  rw [hq] at h1
  exact h1

theorem handleWritableSocket_other (st : ServerState) (s s2 : Nat) (ok : Bool)
    (h : s ≠ s2) :
    alookup (handleWritableSocket st s2 ok).messageQueues s =
      alookup st.messageQueues s ∧
    sentTo s (handleWritableSocket st s2 ok).sent = sentTo s st.sent := by
  unfold handleWritableSocket
  cases hq : alookup st.messageQueues s2 with
  | none => exact ⟨rfl, rfl⟩
  | some q =>
    cases q with
    | nil => exact ⟨rfl, rfl⟩
    | cons b rest =>
      cases ok with
      | true =>
        refine ⟨alookup_aupdate_ne _ _ _ _ h, ?_⟩
        simp [sentTo_append, sentTo, Ne.symm h]
      | false => exact ⟨alookup_aupdate_ne _ _ _ _ h, rfl⟩

theorem runOps_fifo_inv (s : Nat) (ops : List ServerOp) :
    ∀ (st : ServerState) (q : List (List Nat)),
      alookup st.messageQueues s = some q →
      ∃ q2, alookup (runOps st ops).messageQueues s = some q2 ∧
        List.Sublist (sentTo s (runOps st ops).sent ++ q2)
          (sentTo s st.sent ++ q ++ enqBytes ops) ∧
        (allOk s ops →
          sentTo s (runOps st ops).sent ++ q2 =
            sentTo s st.sent ++ q ++ enqBytes ops) := by
  induction ops with
  | nil =>
    intro st q hq
    exact ⟨q, hq, by simp [runOps, enqBytes], fun _ => by simp [runOps, enqBytes]⟩
  | cons op t ih =>
    intro st q hq
    cases op with
    | enq m =>
      have hq2 := broadcastMessage_alookup st m s q hq
      obtain ⟨q2, h1, h2, h3⟩ := ih (broadcastMessage st m) (q ++ [utf8Encode m]) hq2
      have hsent : (broadcastMessage st m).sent = st.sent := rfl
      rw [hsent] at h2 h3
      refine ⟨q2, h1, ?_, ?_⟩
      · simpa [enqBytes, List.append_assoc] using h2
      · intro hok
        have := h3 (fun ok hmem => hok ok (List.mem_cons_of_mem _ hmem))
        simpa [enqBytes, List.append_assoc] using this
    | srv s2 ok =>
      by_cases hss : s = s2
      · subst hss
        rw [show runOps st (ServerOp.srv s ok :: t) =
          runOps (handleWritableSocket st s ok) t from rfl]
        cases hQ : q with
        | nil =>
          have hst : handleWritableSocket st s ok = st := by
            unfold handleWritableSocket
            rw [hq, hQ]
          rw [hst]
          obtain ⟨q2, h1, h2, h3⟩ := ih st q hq
          exact ⟨q2, h1, by simpa [enqBytes, hQ] using h2,
            fun hok => by
              simpa [enqBytes, hQ] using
                h3 (fun ok2 hmem => hok ok2 (List.mem_cons_of_mem _ hmem))⟩
        | cons b rest =>
          cases ok with
          | true =>
            have hst : handleWritableSocket st s true =
                { st with messageQueues := aupdate st.messageQueues s rest
                          sent := st.sent ++ [(s, b)] } := by
              unfold handleWritableSocket
              rw [hq, hQ]
              rfl
            rw [hst]
            simp only [enqBytes]
            obtain ⟨q2, h1, h2, h3⟩ :=
              ih { st with messageQueues := aupdate st.messageQueues s rest
                           sent := st.sent ++ [(s, b)] } rest
                (by exact alookup_aupdate_self st.messageQueues s rest)
            have hR : sentTo s st.sent ++ (b :: rest) ++ enqBytes t =
                sentTo s (st.sent ++ [(s, b)]) ++ rest ++ enqBytes t := by
              rw [sentTo_append]
              simp [sentTo]
            refine ⟨q2, h1, ?_, ?_⟩
            · rw [hR]
              exact h2
            · intro hok
              rw [hR]
              exact h3 (fun ok2 hmem => hok ok2 (List.mem_cons_of_mem _ hmem))
          | false =>
            have hst : handleWritableSocket st s false =
                { st with messageQueues := aupdate st.messageQueues s rest
                          exceptionalSockets := st.exceptionalSockets ++ [s] } := by
              unfold handleWritableSocket
              rw [hq, hQ]
              rfl
            rw [hst]
            simp only [enqBytes]
            obtain ⟨q2, h1, h2, h3⟩ :=
              ih { st with messageQueues := aupdate st.messageQueues s rest
                           exceptionalSockets := st.exceptionalSockets ++ [s] } rest
                (by exact alookup_aupdate_self st.messageQueues s rest)
            refine ⟨q2, h1, ?_, ?_⟩
            · refine h2.trans ?_
              rw [List.append_assoc, List.append_assoc]
              exact ((List.sublist_cons_self b rest).append_right _).append_left _
            · intro hok
              exact absurd (hok false (List.mem_cons_self _ _)) (by simp)
      · have hother := handleWritableSocket_other st s s2 ok hss
        rw [show runOps st (ServerOp.srv s2 ok :: t) =
          runOps (handleWritableSocket st s2 ok) t from rfl]
        obtain ⟨q2, h1, h2, h3⟩ := ih (handleWritableSocket st s2 ok) q
          (by rw [hother.1]; exact hq)
        rw [hother.2] at h2 h3
        refine ⟨q2, h1, by simpa [enqBytes] using h2, fun hok => ?_⟩
        simpa [enqBytes] using
          h3 (fun ok2 hmem => hok ok2 (List.mem_cons_of_mem _ hmem))

/-! ### Claim theorems -/

/-- C3, counterexample: the claim says a handshake-send failure moves the
client to Disconnected with a retry notice, a sleep and delay doubling.
In the code, `_send_username_handshake` swallows its own exception, so
with a successful connect and a failing handshake send (current delay 4)
the client ends up with a live socket (Connected), the plain "Connected"
notice, no sleep, and the delay reset to 1 — not doubled to 8. -/
theorem c3_counterexample :
    (attemptConnection true (some "broken pipe") 4).connectedSocket = true ∧
    (attemptConnection true (some "broken pipe") 4).notices =
      ["Connected to chat server"] ∧
    (attemptConnection true (some "broken pipe") 4).sleeps = [] ∧
    (attemptConnection true (some "broken pipe") 4).nextDelay = 1 :=
  ⟨rfl, rfl, rfl, rfl⟩

/-- C3, amended: a stream-establishment (connect) failure moves the
client to Disconnected, emits the "Connection failed, retrying in Ns"
notice with the current (pre-doubling) delay, sleeps that delay and
doubles it capped at the maximum; a handshake-send failure, by contrast,
is caught inside `_send_username_handshake` (a console print only) and
leaves the client Connected with the delay reset to base. -/
theorem c3_connect_failure_goes_disconnected (d : Nat) (handshakeErr : Option String) :
    ((attemptConnection false handshakeErr d).connectedSocket = false ∧
     (attemptConnection false handshakeErr d).notices =
       ["Connection failed, retrying in " ++ toString d ++ "s"] ∧
     (attemptConnection false handshakeErr d).sleeps = [d] ∧
     (attemptConnection false handshakeErr d).nextDelay =
       min RECONNECT_MAX_DELAY (d * 2)) ∧
    ∀ e, (attemptConnection true (some e) d).connectedSocket = true ∧
      (attemptConnection true (some e) d).nextDelay = RECONNECT_BASE_DELAY ∧
      (attemptConnection true (some e) d).printed =
        ["Failed to send username: " ++ e] ∧
      (attemptConnection true (some e) d).sleeps = [] :=
  ⟨⟨rfl, rfl, rfl, rfl⟩, fun _ => ⟨rfl, rfl, rfl, rfl⟩⟩

/-- C5: with base delay 1 and maximum 16, the delay after `n` consecutive
connect failures is `min 16 (2 ^ n)`, so the reported/slept sequence is
1, 2, 4, 8, 16, 16, 16, …, never exceeding the maximum; each failed
attempt sleeps and reports exactly the current delay; and any successful
connect resets the next delay to the base 1. -/
theorem c5_backoff_sequence :
    (∀ n, delayAfterFailures n = min RECONNECT_MAX_DELAY (2 ^ n)) ∧
    (∀ n, delayAfterFailures n ≤ RECONNECT_MAX_DELAY) ∧
    sleptDelays 7 = [1, 2, 4, 8, 16, 16, 16] ∧
    (∀ handshakeErr d,
      (attemptConnection true handshakeErr d).nextDelay = RECONNECT_BASE_DELAY) ∧
    (∀ handshakeErr d,
      (attemptConnection false handshakeErr d).sleeps = [d] ∧
      (attemptConnection false handshakeErr d).notices =
        ["Connection failed, retrying in " ++ toString d ++ "s"]) := by
  refine ⟨delayAfterFailures_closed, fun n => ?_, by decide,
    fun handshakeErr d => rfl, fun handshakeErr d => ⟨rfl, rfl⟩⟩
  rw [delayAfterFailures_closed]
  exact Nat.min_le_left _ _

/-- C9: `send_message` is a no-op (nothing written, no notice, input not
cleared) when the text is empty after stripping; with a socket present it
writes exactly one encoded `MSG:<stripped text>` message; with no socket
it writes nothing and emits the "Not connected to server" notice; and on
a send failure it emits the "Failed to send message" notice and leaves
the connection state (`client_socket`) unchanged. -/
theorem c9_send_message (sock : Option Nat) (sendErr : Option String) (input : String) :
    (pyStrip input = "" → sendMessage sock sendErr input =
      { socketAfter := sock, wireWrites := [], notices := [], inputCleared := false }) ∧
    (pyStrip input ≠ "" → sock = none → sendMessage sock sendErr input =
      { socketAfter := none, wireWrites := [],
        notices := ["Not connected to server"], inputCleared := true }) ∧
    (pyStrip input ≠ "" → ∀ s, sock = some s →
      (sendErr = none → sendMessage sock sendErr input =
        { socketAfter := sock,
          wireWrites := [utf8Encode ("MSG:" ++ pyStrip input)],
          notices := [], inputCleared := true }) ∧
      (∀ e, sendErr = some e → sendMessage sock sendErr input =
        { socketAfter := sock, wireWrites := [],
          notices := ["Failed to send message: " ++ e], inputCleared := true })) := by
  refine ⟨fun h => by simp [sendMessage, h],
    fun h hn => by subst hn; simp [sendMessage, h],
    fun h s hs => ?_⟩
  subst hs
  exact ⟨fun he => by subst he; simp [sendMessage, h],
    fun e he => by subst he; simp [sendMessage, h]⟩

/-- C9, witness at concrete inputs. -/
theorem c9_witness :
    sendMessage (some 3) none "  hi  " =
      { socketAfter := some 3, wireWrites := [utf8Encode "MSG:hi"],
        notices := [], inputCleared := true } ∧
    sendMessage none none "hi" =
      { socketAfter := none, wireWrites := [],
        notices := ["Not connected to server"], inputCleared := true } ∧
    sendMessage (some 3) none "   " =
      { socketAfter := some 3, wireWrites := [], notices := [],
        inputCleared := false } := by
  refine ⟨?_, ?_, ?_⟩
  · exact (((c9_send_message (some 3) none "  hi  ").2.2 (by decide) 3 rfl).1
      rfl).trans (by decide)
  · exact (c9_send_message none none "hi").2.1 (by decide) rfl
  · exact (c9_send_message (some 3) none "   ").1 (by decide)

/-- C7: an incoming payload whose stripped text starts with `FROM:` but
has no further colon does not crash the decode: the single-split of the
remainder fails, the `ValueError` is caught, and the client renders one
system notice holding the raw (stripped) message text, not an own/other
chat rendering. -/
theorem c7_malformed_from_is_notice (username raw : String)
    (hFrom : startsWithPy (pyStrip raw) "FROM:" = true)
    (hNoColon : ∀ c ∈ (dropPy (pyStrip raw) 5).data, c ≠ ':') :
    handleIncomingMessage username raw =
      [ClientEvent.systemNotice (pyStrip raw)] := by
  simp only [handleIncomingMessage]
  rw [startsWith_FROM_not_SYS hFrom, hFrom]
  simp only [Bool.false_eq_true, if_false, if_true]
  rw [splitOnceChar_eq_none hNoColon]

/-- C7, witness at the spec's concrete input. -/
theorem c7_witness :
    handleIncomingMessage "bob" "FROM:alice" =
      [ClientEvent.systemNotice "FROM:alice"] :=
  (c7_malformed_from_is_notice "bob" "FROM:alice" (by decide) (by decide)).trans
    (by decide)

/-- C1, counterexample: the claim says a connected client whose name is
still unset is excluded from chat broadcasting.  In `stAlice`, socket 1
has a queue but no name; after socket 0's chat is relayed, socket 1's
queue nevertheless holds the encoded `FROM:alice:hi` bytes, because
`_broadcast_message` iterates over all of `message_queues`. -/
theorem c1_counterexample :
    alookup stAlice.clientNames 1 = none ∧
    alookup (handleChatMessage stAlice 0 "MSG:hi").messageQueues 1 =
      some [utf8Encode "FROM:alice:hi"] := by
  constructor <;> decide

/-- C1, amended: for every relayed chat message, the encoded
`FROM:<name>:<text>` bytes are appended to the outbound queue of every
connected client that has a message queue — including the sender's own
queue and clients whose display name is still unset; no client with a
queue is excluded. -/
theorem c1_broadcast_reaches_every_queue (st : ServerState) (s : Nat)
    (name messageText : String)
    (hNamed : alookup st.clientNames s = some name)
    (hMsg : startsWithPy messageText "MSG:" = true) :
    ∀ c q, alookup st.messageQueues c = some q →
      alookup (handleChatMessage st s messageText).messageQueues c =
        some (q ++ [utf8Encode
          ("FROM:" ++ name ++ ":" ++ pyStrip (dropPy messageText 4))]) := by
  intro c q hq
  simp only [handleChatMessage]
  rw [hMsg, hNamed]
  simp only [if_true, Option.getD_some]
  exact broadcastMessage_alookup _ _ c q hq

/-- C1, witness: the sender's own queue receives its relayed message. -/
theorem c1_witness :
    alookup (handleChatMessage stAlice 0 "MSG:hi").messageQueues 0 =
      some [utf8Encode "FROM:alice:hi"] :=
  (c1_broadcast_reaches_every_queue stAlice 0 "alice" "MSG:hi" (by decide)
    (by decide) 0 [] (by decide)).trans (by decide)

/-- C2, counterexample: the claim says a duplicate `NAME:` message from an
already-named client replaces the stored name (last-write-wins).  In the
code, a named client's input goes to `_handle_chat_message`, which ignores
anything not starting with `MSG:`: after socket 0 (named "alice") sends
`NAME:bob`, the state is completely unchanged and the stored name is
still "alice". -/
theorem c2_counterexample :
    processClientMessage stAlice 0 "NAME:bob" = stAlice ∧
    alookup (processClientMessage stAlice 0 "NAME:bob").clientNames 0 =
      some "alice" := by
  constructor <;> decide

/-- C2, amended: a duplicate `NameAnnounce` from an already-named client
is ignored entirely (first-write-wins: the stored name and the whole
state are unchanged); duplicate names across different clients are
permitted and are not an error — an unnamed client registering any
non-blank name succeeds regardless of the names other clients hold. -/
theorem c2_duplicate_name_ignored (st : ServerState) (s : Nat) (messageText : String)
    (hNamed : (alookup st.clientNames s).isSome = true)
    (hName : startsWithPy messageText "NAME:" = true) :
    processClientMessage st s messageText = st ∧
    (∀ s2 n, alookup st.clientNames s2 = none → pyStrip n ≠ "" →
      alookup (processClientMessage st s2 ("NAME:" ++ n)).clientNames s2 =
        some (pyStrip n)) := by
  constructor
  · simp only [processClientMessage]
    rw [hNamed]
    simp only [if_true, handleChatMessage]
    rw [startsWith_NAME_not_MSG hName]
    simp
  · intro s2 n hUnnamed hn
    simp only [processClientMessage]
    rw [hUnnamed]
    simp only [Option.isSome_none, Bool.false_eq_true, if_false,
      handleNameRegistration]
    rw [startsWithPy_self_append]
    have hdrop : dropPy ("NAME:" ++ n) 5 = n :=
      dropPy_prefix_append "NAME:" n
    rw [hdrop]
    simp only [if_true, hn, if_false, broadcastMessage, logMsg]
    rw [alookup_aupdate_self]

/-- C2, witness: socket 0 (named "alice") sending `NAME:bob` changes
nothing, while unnamed socket 1 may register the duplicate name "alice". -/
theorem c2_witness :
    processClientMessage stAlice 0 "NAME:bob" = stAlice ∧
    alookup (processClientMessage stAlice 1 ("NAME:" ++ "alice")).clientNames 1 =
      some "alice" := by
  have h := c2_duplicate_name_ignored stAlice 0 "NAME:bob" (by decide) (by decide)
  exact ⟨h.1, (h.2 1 "alice" (by decide) (by decide)).trans (by decide)⟩

/-- C6: a `MSG:`-prefixed message from a client with no registered name
falls into `_handle_name_registration`, whose `else` branch does nothing:
the state is unchanged — no `FROM:` bytes are enqueued anywhere and no
registry state is altered. -/
theorem c6_unregistered_chat_ignored (st : ServerState) (s : Nat)
    (messageText : String)
    (hUnnamed : alookup st.clientNames s = none)
    (hMsg : startsWithPy messageText "MSG:" = true) :
    processClientMessage st s messageText = st := by
  simp only [processClientMessage]
  rw [hUnnamed]
  simp only [Option.isSome_none, Bool.false_eq_true, if_false,
    handleNameRegistration]
  rw [startsWith_MSG_not_NAME hMsg]
  simp

/-- C6, witness: unnamed socket 1 sending `MSG:hi` changes nothing. -/
theorem c6_witness : processClientMessage stAlice 1 "MSG:hi" = stAlice :=
  c6_unregistered_chat_ignored stAlice 1 "MSG:hi" (by decide) (by decide)

/-- C4, counterexample: the claim says a second disconnection-cleanup is
a no-op producing no additional log lines.  Running the handler twice for
socket 0 (under the main loop's `try`/`except`) does not reproduce the
first call's state: the second call finds the socket already closed, so
`getpeername()` raises and the loop logs an extra "Server error" line. -/
theorem c4_counterexample :
    runDisconnectionInLoop (runDisconnectionInLoop stAlice 0) 0 ≠
      runDisconnectionInLoop stAlice 0 := by
  decide

/-- C4, amended: the registry effect of disconnection cleanup is
idempotent — a second invocation removes nothing, broadcasts no leave
notice and changes no state — but it is not a silent no-op: the handler
raises on `getpeername()` of the already-closed socket (the pair's
`some` component), which the server loop surfaces as exactly one
additional "Server error" log line. -/
theorem c4_cleanup_state_idempotent (st : ServerState) (s : Nat)
    (hOpen : s ∉ st.closedSockets)
    (hNodup : (st.clientNames.map Prod.fst).Nodup) :
    ((handleClientDisconnection st s).2 = none ∧
     s ∈ (handleClientDisconnection st s).1.closedSockets ∧
     alookup (handleClientDisconnection st s).1.clientNames s = none) ∧
    (∀ st2 : ServerState, s ∈ st2.closedSockets →
      alookup st2.clientNames s = none →
      handleClientDisconnection st2 s = (st2, some "Bad file descriptor") ∧
      runDisconnectionInLoop st2 s =
        { st2 with log := st2.log ++ ["Server error: Bad file descriptor"] }) := by
  constructor
  · have hlook : alookup (aremove (aremove st.clientNames s) s) s = none := by
      have h1 : alookup (aremove st.clientNames s) s = none :=
        alookup_aremove_self_of_nodup st.clientNames s hNodup
      rw [aremove_eq_of_alookup_none _ _ h1]
      exact h1
    cases hname : alookup st.clientNames s with
    | none =>
      simp only [handleClientDisconnection, cleanupClientSocket, logMsg, hname,
        hOpen, if_false]
      exact ⟨by trivial, by simp, by simpa using hlook⟩
    | some name =>
      simp only [handleClientDisconnection, cleanupClientSocket, logMsg,
        broadcastMessage, hname, hOpen, if_false]
      exact ⟨by trivial, by simp, by simpa using hlook⟩
  · intro st2 hin hnone
    have h1 : handleClientDisconnection st2 s = (st2, some "Bad file descriptor") := by
      simp only [handleClientDisconnection, hin, if_true]
      rw [aremove_eq_of_alookup_none _ _ hnone]
    refine ⟨h1, ?_⟩
    simp only [runDisconnectionInLoop, h1, logMsg]
    rfl

/-- C4, witness: the first cleanup of socket 0 returns normally and a
second invocation on the resulting state only raises. -/
theorem c4_witness :
    (handleClientDisconnection stAlice 0).2 = none ∧
    handleClientDisconnection (handleClientDisconnection stAlice 0).1 0 =
      ((handleClientDisconnection stAlice 0).1, some "Bad file descriptor") := by
  have h := c4_cleanup_state_idempotent stAlice 0 (by decide) (by decide)
  exact ⟨h.1.1, (h.2 (handleClientDisconnection stAlice 0).1 h.1.2.1 h.1.2.2).1⟩

/-- C10: server-side decoding of a received chunk is total — an invalid
byte (e.g. `0xFF`) is silently dropped and decoding continues, an ASCII
byte decodes to its character — `_handle_client_data` processes exactly
the decoded-then-stripped text and never raises on the data path, and
stripping makes prefix recognition ignore any surrounding whitespace. -/
theorem c10_decode_total_strip :
    (∀ bs, utf8DecodeIgnore (255 :: bs) = utf8DecodeIgnore bs) ∧
    (∀ b bs, b < 128 → utf8DecodeIgnore (b :: bs) =
      Char.ofNat b :: utf8DecodeIgnore bs) ∧
    (∀ st s receivedData, receivedData ≠ [] →
      handleClientData st s (.ok receivedData) =
        (processClientMessage st s (pyStrip ⟨utf8DecodeIgnore receivedData⟩),
          none)) ∧
    (∀ t pre post : String, (∀ c ∈ pre.data, isPySpace c = true) →
      (∀ c ∈ post.data, isPySpace c = true) →
      pyStrip (pre ++ t ++ post) = pyStrip t) := by
  refine ⟨fun bs => ?_, fun b bs hb => ?_,
    fun st s receivedData h => ?_, fun t pre post hpre hpost => ?_⟩
  · have hstep : utf8DecodeStep 255 bs = (none, 0) := rfl
    rw [utf8DecodeIgnore, hstep]
    rfl
  · have hstep : utf8DecodeStep b bs = (some (Char.ofNat b), 0) := by
      unfold utf8DecodeStep
      rw [if_pos hb]
    rw [utf8DecodeIgnore, hstep]
    rfl
  · simp only [handleClientData]
    rw [if_pos h]
  · unfold pyStrip
    rw [show (pre ++ t ++ post).data = pre.data ++ t.data ++ post.data from rfl,
      stripList_pad t.data pre.data post.data hpre hpost]

/-- C10, witness at concrete inputs. -/
theorem c10_witness :
    pyStrip (" " ++ "NAME:bob" ++ " \t") = pyStrip "NAME:bob" ∧
    utf8DecodeIgnore (255 :: utf8Encode "MSG:hi") =
      utf8DecodeIgnore (utf8Encode "MSG:hi") ∧
    handleClientData stAlice 0 (.ok (utf8Encode "  MSG:hi ")) =
      (processClientMessage stAlice 0
        (pyStrip ⟨utf8DecodeIgnore (utf8Encode "  MSG:hi ")⟩), none) :=
  ⟨c10_decode_total_strip.2.2.2 "NAME:bob" " " " \t" (by decide) (by decide),
   c10_decode_total_strip.1 (utf8Encode "MSG:hi"),
   c10_decode_total_strip.2.2.1 stAlice 0 (utf8Encode "  MSG:hi ") (by decide)⟩

/-- C8: per-connection FIFO ordering.  A broadcast appends to the tail of
every queue; the writable handler pops the head and writes it; and over
any sequence of broadcast/service operations the bytes written to a
socket, followed by its remaining queue, form a sublist of the bytes
enqueued for it in order — with equality (everything enqueued is written
in exactly enqueue order) when every send to that socket succeeds.  In
particular, of two byte-sequences enqueued E1 before E2, E1 is dequeued
and written before E2. -/
theorem c8_fifo_order :
    (∀ st m c q, alookup st.messageQueues c = some q →
      alookup (broadcastMessage st m).messageQueues c =
        some (q ++ [utf8Encode m])) ∧
    (∀ st c b rest, alookup st.messageQueues c = some (b :: rest) →
      handleWritableSocket st c true =
        { st with messageQueues := aupdate st.messageQueues c rest
                  sent := st.sent ++ [(c, b)] }) ∧
    (∀ ops st c q, alookup st.messageQueues c = some q →
      sentTo c st.sent = [] →
      ∃ q2, alookup (runOps st ops).messageQueues c = some q2 ∧
        List.Sublist (sentTo c (runOps st ops).sent ++ q2) (q ++ enqBytes ops) ∧
        (allOk c ops →
          sentTo c (runOps st ops).sent ++ q2 = q ++ enqBytes ops)) := by
  refine ⟨broadcastMessage_alookup, fun st c b rest hq => ?_,
    fun ops st c q hq hsent => ?_⟩
  · unfold handleWritableSocket
    rw [hq]
    rfl
  · obtain ⟨q2, h1, h2, h3⟩ := runOps_fifo_inv c ops st q hq
    rw [hsent] at h2 h3
    simp only [List.nil_append] at h2 h3
    exact ⟨q2, h1, h2, h3⟩

/-- C8, witness: from the empty queue of socket 1, two broadcasts then
two successful services write the two messages in enqueue order. -/
theorem c8_witness :
    ∃ q2, alookup (runOps stAlice
        [ServerOp.enq "a", ServerOp.enq "b",
         ServerOp.srv 1 true, ServerOp.srv 1 true]).messageQueues 1 = some q2 ∧
      List.Sublist (sentTo 1 (runOps stAlice
        [ServerOp.enq "a", ServerOp.enq "b",
         ServerOp.srv 1 true, ServerOp.srv 1 true]).sent ++ q2)
        ([] ++ enqBytes [ServerOp.enq "a", ServerOp.enq "b",
         ServerOp.srv 1 true, ServerOp.srv 1 true]) ∧
      (allOk 1 [ServerOp.enq "a", ServerOp.enq "b",
         ServerOp.srv 1 true, ServerOp.srv 1 true] →
        sentTo 1 (runOps stAlice
          [ServerOp.enq "a", ServerOp.enq "b",
           ServerOp.srv 1 true, ServerOp.srv 1 true]).sent ++ q2 =
          [] ++ enqBytes [ServerOp.enq "a", ServerOp.enq "b",
           ServerOp.srv 1 true, ServerOp.srv 1 true]) :=
  c8_fifo_order.2.2
    [ServerOp.enq "a", ServerOp.enq "b", ServerOp.srv 1 true, ServerOp.srv 1 true]
    stAlice 1 [] (by decide) (by decide)

end GroupChat
